import Mathlib

/-!
Verification of the Markdown Image Enrichment Pipeline of `app/main.py`.

The development shallowly embeds the Python source:

* text is modelled as `List Char` (Python `str` indexing is by code point,
  matching list indexing here);
* `re.finditer` with the pattern from the source is modelled by a
  deterministic scanner (`scanImages`), which is faithful because the
  pattern is backtracking-free: the character class excludes the closing
  bracket, and the lazy group stops at the first closing parenthesis;
* the remote description service is modelled as an oracle function
  (`List Char → List Char`) giving the text that `PictureDescription`
  returns for a payload, and separately, for the claims about
  `PictureDescription` itself, as a `FetchOutcome` value describing the
  transport result and the parsed JSON body;
* the filesystem is modelled as an association list from paths to file
  contents.

Python `\s` is modelled by the six ASCII whitespace characters; none of
the claims depend on non-ASCII whitespace.  JSON numbers are modelled as
integers; none of the claims depend on fractional values.
-/

/-- The six characters matched by Python `\s` on ASCII text. -/
def pyIsSpace (c : Char) : Bool :=
  c = ' ' || c = '\t' || c = '\n' || c = '\r' || c = '\x0b' || c = '\x0c'

/-- Python `str.strip()`: drop leading and trailing whitespace. -/
def stripWs (s : List Char) : List Char :=
  ((s.dropWhile pyIsSpace).reverse.dropWhile pyIsSpace).reverse

/-- Break a list at the first occurrence of character `c`; the first
component contains no `c`, and `c` itself is dropped. -/
def breakAt (c : Char) : List Char → Option (List Char × List Char)
  | [] => none
  | x :: xs =>
    if x = c then some ([], xs)
    else (breakAt c xs).map (fun pr => (x :: pr.1, pr.2))

/-- Python `s.split(sep, 1)`, as the pair of the part before the first
occurrence of `sep` and the part after it; `none` when `sep` does not
occur (Python `sep in s` is false). -/
def splitOnFirst (sep : List Char) (hay : List Char) : Option (List Char × List Char) :=
  if sep.isPrefixOf hay then some ([], hay.drop sep.length)
  else
    match hay with
    | [] => none
    | c :: rest => (splitOnFirst sep rest).map (fun pr => (c :: pr.1, pr.2))

/-- Python `s.replace(old, new, 1)`. -/
def replaceFirst (s old new : List Char) : List Char :=
  match splitOnFirst old s with
  | some pr => pr.1 ++ new ++ pr.2
  | none => s

/-- One scanned image reference: the text captured by group 1 of
`!\[[^\]]*\]\((.*?)\)` (the content between the parentheses) and the
start offset of that group in the original text.  The group end offset
is `gStart + inner.length`. -/
structure MdMatch where
  inner : List Char
  gStart : Nat
deriving DecidableEq, Repr

/-- Attempt the image pattern at the head of `s`.  On success, return
the group-1 text, the offset of group 1 from the start of the match, and
the remainder of the text after the whole match.  The pattern is
`!\[[^\]]*\]\((.*?)\)` with `re.DOTALL`: alt text runs to the first
closing bracket, the inner group runs to the first closing parenthesis,
and both may contain newlines. -/
def tryImageMatch (s : List Char) : Option (List Char × Nat × List Char) :=
  match s with
  | '!' :: '[' :: t1 =>
    match breakAt ']' t1 with
    | some (alt, t2) =>
      match t2 with
      | '(' :: t3 =>
        match breakAt ')' t3 with
        | some (inner, t4) => some (inner, 2 + alt.length + 2, t4)
        | none => none
      | _ => none
    | none => none
  | _ => none

/-- Fuelled scanner: at each position try the image pattern; on success
record the match and resume after it (as `re.finditer` does, matches do
not overlap), otherwise advance one character.  Every step consumes at
least one character of the text, so fuel `length + 1` never runs out. -/
def scanImagesFuel : Nat → List Char → Nat → List MdMatch
  | 0, _, _ => []
  | _ + 1, [], _ => []
  | fuel + 1, c :: rest, pos =>
    match tryImageMatch (c :: rest) with
    | some (inner, off, t4) =>
      { inner := inner, gStart := pos + off } ::
        scanImagesFuel fuel t4 (pos + off + inner.length + 1)
    | none => scanImagesFuel fuel rest (pos + 1)

/-- All matches of the image pattern over the original text, in
left-to-right order, with group-1 spans into the original text. -/
def scanImages (content : List Char) : List MdMatch :=
  scanImagesFuel (content.length + 1) content 0

/-- Skip a whitespace run and return the first non-whitespace character
together with the text after it, if any. -/
def afterWsRun : List Char → Option (Char × List Char)
  | [] => none
  | c :: rest => if pyIsSpace c then afterWsRun rest else some (c, rest)

/-- Does `s` contain an occurrence of the quote `q` followed only by
whitespace?  Equivalently, is the last non-whitespace character of `s`
equal to `q`?  This is exactly when the greedy `".*"` (or `'.*'`)
alternative followed by `\s*$` succeeds. -/
def closesProperly (q : Char) (s : List Char) : Bool :=
  match s.reverse.dropWhile pyIsSpace with
  | c :: _ => c = q
  | [] => false

/-- Does the title pattern `\s+(?:".*"|'.*')\s*$` (with `re.DOTALL`)
match starting at a position holding character `c` with remainder
`rest`?  The `\s+` run is forced to end at the first non-whitespace
character, which must be a quote whose matching close is followed only
by whitespace. -/
def titleMatchHere (c : Char) (rest : List Char) : Bool :=
  pyIsSpace c &&
    match afterWsRun rest with
    | some (qc, tail) => (qc = '"' || qc = '\'') && closesProperly qc tail
    | none => false

/-- Index of the leftmost start of a title match inside the parenthesis
content, as `re.search` finds it. -/
def findTitleStartAux : List Char → Nat → Option Nat
  | [], _ => none
  | c :: rest, p =>
    if titleMatchHere c rest then some p else findTitleStartAux rest (p + 1)

/-- The URL part of the parenthesis content: the text before a trailing
quoted title (if any), stripped, as computed at lines 304-306 of the
source. -/
def computeUrlPart (inner : List Char) : List Char :=
  match findTitleStartAux inner 0 with
  | some p => stripWs (inner.take p)
  | none => stripWs inner

/-- The literal `base64,`. -/
def base64Marker : List Char := "base64,".toList

/-- Normalisation at lines 311-316 of the source: split at the first
`base64,`, remove every whitespace character after it, and keep the part
before it unchanged; a URL with no `base64,` marker is kept as is. -/
def normalizeDataUri (url : List Char) : List Char :=
  match splitOnFirst base64Marker url with
  | some pr => pr.1 ++ base64Marker ++ pr.2.filter (fun c => !(pyIsSpace c))
  | none => url

/-- Does this match hold an embedded data-URI image
(`url_part.startswith("data:image")`)? -/
def isDataImageMatch (m : MdMatch) : Bool :=
  "data:image".toList.isPrefixOf (computeUrlPart m.inner)

/-- The deduplication key `data_uri_clean` of a match. -/
def cleanOf (m : MdMatch) : List Char :=
  normalizeDataUri (computeUrlPart m.inner)

/-- State of the enrichment loop: the mutated text and the list of
payloads sent to the description service so far.  The Python `seen` list
receives exactly one entry per remote call, in call order, so it is the
same list. -/
structure IntegrationResult where
  text : List Char
  calls : List (List Char)
deriving DecidableEq, Repr

/-- One iteration of the loop at lines 301-331 of the source, for match
`m`, with `oracle` giving the text returned by `PictureDescription` for
a payload.  A non-data-image URL is skipped; a data URI already in
`seen` is skipped; otherwise the description is obtained, substituted
for the URL part inside the reconstructed parenthesis content, and the
result is spliced into the current text at the group-1 span of the
original text. -/
def integrationStep (oracle : List Char → List Char)
    (st : IntegrationResult) (m : MdMatch) : IntegrationResult :=
  if isDataImageMatch m then
    if cleanOf m ∈ st.calls then st
    else
      { text := st.text.take m.gStart ++
          replaceFirst m.inner (computeUrlPart m.inner) (oracle (cleanOf m)) ++
          st.text.drop (m.gStart + m.inner.length),
        calls := st.calls ++ [cleanOf m] }
  else st

/-- The enrichment loop over a markdown text: scan the original text
once, then fold the per-match step over the match list. -/
def pictureIntegrationText (oracle : List Char → List Char)
    (content : List Char) : IntegrationResult :=
  (scanImages content).foldl (integrationStep oracle) { text := content, calls := [] }

/-- Filesystem model: an association list from paths to contents. -/
def lookupFs : List (List Char × List Char) → List Char → Option (List Char)
  | [], _ => none
  | (k, v) :: rest, p => if k = p then some v else lookupFs rest p

/-- `PictureIntegration` (lines 281-333): raise `FileNotFoundError` when
the path does not exist, otherwise read the file fully and run the
enrichment loop on its content. -/
def PictureIntegration (fs : List (List Char × List Char))
    (oracle : List Char → List Char) (mdFilepath : List Char) :
    Except (List Char) IntegrationResult :=
  match lookupFs fs mdFilepath with
  | none => Except.error mdFilepath
  | some content => Except.ok (pictureIntegrationText oracle content)

/-- Lines 133-139 of the docling endpoint: try `PictureIntegration` on
the saved markdown file; on any exception fall back to the document
export. -/
def doclingEnrichmentStep (fs : List (List Char × List Char))
    (oracle : List Char → List Char) (mdFilename : List Char)
    (fallbackExport : List Char) : List Char :=
  match PictureIntegration fs oracle mdFilename with
  | Except.ok r => r.text
  | Except.error _ => fallbackExport

/-- Parsed JSON values, as produced by `resp.json()`.  Numbers are
modelled as integers; no claim depends on fractional values.  Object
fields are kept in order (Python dicts preserve insertion order). -/
inductive JValue where
  | str (s : String)
  | num (n : Int)
  | bool (b : Bool)
  | null
  | arr (xs : List JValue)
  | obj (fields : List (String × JValue))
deriving Repr

/-- Python `j.get(k) if isinstance(j, dict) else None`. -/
def getField (j : JValue) (k : String) : Option JValue :=
  match j with
  | .obj fields => lookupField fields k
  | _ => none
where lookupField : List (String × JValue) → String → Option JValue
  | [], _ => none
  | (k', v) :: rest, k => if k' = k then some v else lookupField rest k

/-- Python truthiness of a JSON value. -/
def truthy : JValue → Bool
  | .str s => !s.data.isEmpty
  | .num n => n != 0
  | .bool b => b
  | .null => false
  | .arr xs => !xs.isEmpty
  | .obj fields => !fields.isEmpty

/-- Does the string contain a non-whitespace character, i.e. is Python
`s.strip()` truthy? -/
def hasNonWs (s : String) : Bool :=
  s.data.any (fun c => !(pyIsSpace c))

/-- The loop at lines 260-264 of the source: the first list entry that
is a dict whose `type` equals `"text"` and whose `text` value is truthy
yields that `text` value (of whatever JSON type it has); all other
entries are passed over. -/
def findTextItem : List JValue → Option JValue
  | [] => none
  | item :: rest =>
    match getField item "type" with
    | some (.str t) =>
      if t = "text" then
        match getField item "text" with
        | some v => if truthy v then some v else findTextItem rest
        | none => findTextItem rest
      else findTextItem rest
    | _ => findTextItem rest

/-- Lines 254-264: the result extracted from `choices[0].message.content`
when the message is a dict — the content itself when it is a string, or
the first truthy text part when it is a list. -/
def msgContentResult (first : JValue) : Option JValue :=
  match getField first "message" with
  | some msg =>
    match getField msg "content" with
    | some (.str s) => some (.str s)
    | some (.arr items) => findTextItem items
    | _ => none
  | none => none

/-- Lines 265-267: `choices[0].text`, accepted only when it is a string
whose `strip()` is non-empty. -/
def firstChoiceText (first : JValue) : Option String :=
  match getField first "text" with
  | some (.str s) => if hasNonWs s then some s else none
  | _ => none

/-- A top-level field accepted only when it is a string whose `strip()`
is non-empty (lines 269-273). -/
def stringFieldNonBlank (j : JValue) (k : String) : Option String :=
  match getField j k with
  | some (.str s) => if hasNonWs s then some s else none
  | _ => none

/-- A top-level field accepted whenever it is a string, with no
non-blank requirement. -/
def stringFieldAny (j : JValue) (k : String) : Option String :=
  match getField j k with
  | some (.str s) => some s
  | _ => none

/-- Lines 269-273: the first of the top-level fields `text`, `output`,
`message`, `description` holding a non-blank string. -/
def topLevelFields (j : JValue) : Option String :=
  match stringFieldNonBlank j "text" with
  | some s => some s
  | none =>
    match stringFieldNonBlank j "output" with
    | some s => some s
    | none =>
      match stringFieldNonBlank j "message" with
      | some s => some s
      | none => stringFieldNonBlank j "description"

/-- Hexadecimal digit, lowercase as Python emits it. -/
def hexDigitChar (n : Nat) : Char :=
  if n < 10 then Char.ofNat (48 + n) else Char.ofNat (87 + n)

/-- A `\uXXXX` escape. -/
def u4Escape (n : Nat) : String :=
  String.mk ['\\', 'u', hexDigitChar (n / 4096 % 16), hexDigitChar (n / 256 % 16),
    hexDigitChar (n / 16 % 16), hexDigitChar (n % 16)]

/-- The escape Python `json.dumps` (with its default `ensure_ascii`)
applies to one character. -/
def escapeJsonChar (c : Char) : String :=
  if c = '"' then "\\\""
  else if c = '\\' then "\\\\"
  else if c = '\n' then "\\n"
  else if c = '\t' then "\\t"
  else if c = '\r' then "\\r"
  else if c = '\x08' then "\\b"
  else if c = '\x0c' then "\\f"
  else if c.toNat < 32 then u4Escape c.toNat
  else if c.toNat < 127 then String.singleton c
  else if c.toNat < 65536 then u4Escape c.toNat
  else u4Escape (55296 + (c.toNat - 65536) / 1024) ++ u4Escape (56320 + (c.toNat - 65536) % 1024)

/-- A JSON string literal as Python `json.dumps` renders it. -/
def dumpsString (s : String) : String :=
  "\"" ++ String.join (s.data.map escapeJsonChar) ++ "\""

mutual

/-- Python `json.dumps(j)` (line 276), with Python's default separators
and string escaping. -/
def dumps : JValue → String
  | .str s => dumpsString s
  | .num n => toString n
  | .bool b => if b then "true" else "false"
  | .null => "null"
  | .arr xs => "[" ++ dumpsElems xs ++ "]"
  | .obj fields => "\x7b" ++ dumpsFields fields ++ "\x7d"

/-- The comma-joined elements of a JSON array. -/
def dumpsElems : List JValue → String
  | [] => ""
  | [x] => dumps x
  | x :: y :: rest => dumps x ++ ", " ++ dumpsElems (y :: rest)

/-- The comma-joined `"key": value` pairs of a JSON object. -/
def dumpsFields : List (String × JValue) → String
  | [] => ""
  | [(k, v)] => dumpsString k ++ ": " ++ dumps v
  | (k, v) :: kv :: rest => dumpsString k ++ ": " ++ dumps v ++ ", " ++ dumpsFields (kv :: rest)

end

/-- Lines 269-277 of the source, reached when the `choices` extraction
did not return: a non-blank top-level string field, or else the whole
structure serialised back to text. -/
def afterChoices (j : JValue) : JValue :=
  match topLevelFields j with
  | some s => .str s
  | none => .str (dumps j)

/-- The whole extraction of lines 249-277, translated from the source
control flow (early returns become nested matches).  The guard at line
251 — `choices` truthy, a list, and non-empty — is equivalent to the
field being a non-empty JSON array. -/
def codeExtractJson (j : JValue) : JValue :=
  match getField j "choices" with
  | some (.arr (first :: _)) =>
    match msgContentResult first with
    | some v => v
    | none =>
      match firstChoiceText first with
      | some s => .str s
      | none => afterChoices j
  | _ => afterChoices j

/-- `"[PictureDescription failed: " + str(e) + "]"` (line 242). -/
def pdFailPlaceholder (errDetail : String) : String :=
  "[PictureDescription failed: " ++ errDetail ++ "]"

/-- Outcome of the single `requests.post` call made by
`PictureDescription`: a transport failure or non-2xx status (both raise
inside the `try` block), or a successful response with its body text
and, when the body is valid JSON, its parsed value. -/
inductive FetchOutcome where
  | failure (errDetail : String)
  | success (bodyText : String) (parsed : Option JValue)

/-- `PictureDescription` (lines 189-278), as a function of the outcome
of its one remote call.  It returns the Python value the function
returns: normally a string, but the extraction can also leak a
non-string JSON value (line 264). -/
def PictureDescription : FetchOutcome → JValue
  | .failure e => .str (pdFailPlaceholder e)
  | .success body none => .str body
  | .success _ (some j) => codeExtractJson j

/-- Step (a) of the claimed priority order: `choices[0].message.content`
itself when a string, or the first text-typed part when a list. -/
def claimStepA (j : JValue) : Option JValue :=
  match getField j "choices" with
  | some (.arr (first :: _)) => msgContentResult first
  | _ => none

/-- Step (b) of the claimed priority order, read literally from the
claim: `choices[0].text` whenever it is a string, with no non-blank
requirement. -/
def claimStepBLiteral (j : JValue) : Option JValue :=
  match getField j "choices" with
  | some (.arr (first :: _)) =>
    match getField first "text" with
    | some (.str s) => some (.str s)
    | _ => none
  | _ => none

/-- Step (c) of the claimed priority order, read literally from the
claim: the first of the four top-level fields holding any string. -/
def claimStepCLiteral (j : JValue) : Option String :=
  match stringFieldAny j "text" with
  | some s => some s
  | none =>
    match stringFieldAny j "output" with
    | some s => some s
    | none =>
      match stringFieldAny j "message" with
      | some s => some s
      | none => stringFieldAny j "description"

/-- The extraction as claim C3 states it, literally: the priority chain
(a), (b), (c), then (e) serialisation. -/
def claimExtractJson (j : JValue) : JValue :=
  match claimStepA j with
  | some v => v
  | none =>
    match claimStepBLiteral j with
    | some v => v
    | none =>
      match claimStepCLiteral j with
      | some s => .str s
      | none => .str (dumps j)

/-- Claim C3 read literally, lifted to outcomes: (d) raw body on parse
failure, otherwise the literal priority chain. -/
def claimDescription : FetchOutcome → JValue
  | .failure e => .str (pdFailPlaceholder e)
  | .success body none => .str body
  | .success _ (some j) => claimExtractJson j

/-- Step (b) as amended: `choices[0].text` only when it is a string
whose `strip()` is non-empty. -/
def claimStepBAmended (j : JValue) : Option JValue :=
  match getField j "choices" with
  | some (.arr (first :: _)) => (firstChoiceText first).map .str
  | _ => none

/-- The amended priority chain: (a); then (b) requiring a non-blank
string; then (c) requiring a non-blank string for each of the four
fields; then (e) serialisation. -/
def claimExtractJsonAmended (j : JValue) : JValue :=
  match claimStepA j with
  | some v => v
  | none =>
    match claimStepBAmended j with
    | some v => v
    | none =>
      match topLevelFields j with
      | some s => .str s
      | none => .str (dumps j)

/-- The amended claim C3 lifted to outcomes. -/
def claimDescriptionAmended : FetchOutcome → JValue
  | .failure e => .str (pdFailPlaceholder e)
  | .success body none => .str body
  | .success _ (some j) => claimExtractJsonAmended j

/-! ### Helper lemmas about the enrichment loop -/

lemma integrationStep_not_data (o : List Char → List Char) (st : IntegrationResult)
    (m : MdMatch) (h : isDataImageMatch m = false) : integrationStep o st m = st := by
  simp [integrationStep, h]

lemma integrationStep_seen (o : List Char → List Char) (st : IntegrationResult)
    (m : MdMatch) (h1 : isDataImageMatch m = true) (h2 : cleanOf m ∈ st.calls) :
    integrationStep o st m = st := by
  simp [integrationStep, h1, h2]

lemma integrationStep_new (o : List Char → List Char) (st : IntegrationResult)
    (m : MdMatch) (h1 : isDataImageMatch m = true) (h2 : cleanOf m ∉ st.calls) :
    integrationStep o st m =
      { text := st.text.take m.gStart ++
          replaceFirst m.inner (computeUrlPart m.inner) (o (cleanOf m)) ++
          st.text.drop (m.gStart + m.inner.length),
        calls := st.calls ++ [cleanOf m] } := by
  simp [integrationStep, h1, h2]

lemma foldl_integrationStep_skip (o : List Char → List Char) (ms : List MdMatch)
    (st : IntegrationResult)
    (h : ∀ m ∈ ms, isDataImageMatch m = true → cleanOf m ∈ st.calls) :
    ms.foldl (integrationStep o) st = st := by
  induction ms with
  | nil => rfl
  | cons m rest ih =>
    have hm : integrationStep o st m = st := by
      by_cases hd : isDataImageMatch m
      · exact integrationStep_seen o st m hd (h m (by simp) hd)
      · exact integrationStep_not_data o st m (by simpa using hd)
    rw [List.foldl_cons, hm]
    exact ih (fun m' hm' => h m' (List.mem_cons_of_mem m hm'))

/-! ### Helper lemmas about prefixes and first-occurrence splitting -/

lemma prefix_append_iff_of_le (m x a : List Char) (h : m.length ≤ x.length) :
    m <+: x ++ a ↔ m <+: x := by
  constructor
  · intro hp
    have h1 : m = (x ++ a).take m.length := List.prefix_iff_eq_take.mp hp
    have h2 : (x ++ a).take m.length = x.take m.length := by
      rw [List.take_append_eq_append_take, Nat.sub_eq_zero_of_le h,
        List.take_zero, List.append_nil]
    rw [List.prefix_iff_eq_take, ← h2, ← h1]
  · intro hp
    exact hp.trans (List.prefix_append x a)

lemma isPrefixOf_append_of_le (m x a : List Char) (h : m.length ≤ x.length) :
    m.isPrefixOf (x ++ a) = m.isPrefixOf x := by
  by_cases hp : m <+: x
  · have t1 : m.isPrefixOf x = true := List.isPrefixOf_iff_prefix.mpr hp
    have t2 : m.isPrefixOf (x ++ a) = true :=
      List.isPrefixOf_iff_prefix.mpr ((prefix_append_iff_of_le m x a h).mpr hp)
    rw [t1, t2]
  · have t1 : m.isPrefixOf x = false :=
      Bool.eq_false_iff.mpr (fun hc => hp (List.isPrefixOf_iff_prefix.mp hc))
    have t2 : m.isPrefixOf (x ++ a) = false :=
      Bool.eq_false_iff.mpr (fun hc =>
        hp ((prefix_append_iff_of_le m x a h).mp (List.isPrefixOf_iff_prefix.mp hc)))
    rw [t1, t2]

/-- `splitOnFirst` at an occurrence known to be the first one: when no
position strictly inside `x` starts an occurrence of `sep`, the split of
`x ++ sep ++ y` is `(x, y)`. -/
lemma splitOnFirst_append (sep x y : List Char)
    (hx : ∀ i < x.length, sep.isPrefixOf ((x ++ sep).drop i) = false) :
    splitOnFirst sep (x ++ (sep ++ y)) = some (x, y) := by
  induction x with
  | nil =>
    have hpre : sep.isPrefixOf (sep ++ y) = true :=
      List.isPrefixOf_iff_prefix.mpr (List.prefix_append sep y)
    rw [List.nil_append, splitOnFirst.eq_def, if_pos hpre, List.drop_left]
  | cons c x' ih =>
    have h0 : sep.isPrefixOf (c :: (x' ++ (sep ++ y))) = false := by
      have e : c :: (x' ++ (sep ++ y)) = ((c :: x') ++ sep) ++ y := by
        rw [List.append_assoc, List.cons_append]
      rw [e, isPrefixOf_append_of_le sep ((c :: x') ++ sep) y
        (by rw [List.length_append]; omega)]
      have h1 := hx 0 (by simp)
      rwa [List.drop_zero] at h1
    have hx' : ∀ i < x'.length, sep.isPrefixOf ((x' ++ sep).drop i) = false := by
      intro i hi
      have h2 := hx (i + 1) (by simp; omega)
      rwa [List.cons_append, List.drop_succ_cons] at h2
    rw [List.cons_append, splitOnFirst.eq_def, if_neg (by simp [h0])]
    show (splitOnFirst sep (x' ++ (sep ++ y))).map (fun pr => (c :: pr.1, pr.2)) =
      some (c :: x', y)
    rw [ih hx']
    rfl

/-! ### Helper lemmas about the URL part of a scanned match -/

lemma stripTrail_isPrefix (z : List Char) :
    (z.reverse.dropWhile pyIsSpace).reverse <+: z := by
  have h1 : z.reverse.dropWhile pyIsSpace <:+ z.reverse := List.dropWhile_suffix pyIsSpace
  have h2 := List.reverse_prefix.mpr h1
  simpa using h2

lemma dropWhile_take_isPrefix (q : Char → Bool) (l : List Char) (n : Nat) :
    (l.take n).dropWhile q <+: l.dropWhile q := by
  induction l generalizing n with
  | nil => simp
  | cons c cs ih =>
    cases n with
    | zero => simp
    | succ n' =>
      rw [List.take_succ_cons, List.dropWhile_cons, List.dropWhile_cons]
      by_cases hq : q c
      · simp only [hq, if_true]
        exact ih n'
      · simp only [hq, if_false, Bool.false_eq_true]
        exact List.cons_prefix_cons.mpr ⟨rfl, List.take_prefix n' cs⟩

/-- The URL part of a parenthesis content is always a prefix of the
content with its leading whitespace removed. -/
lemma computeUrlPart_isPrefix (inner : List Char) :
    computeUrlPart inner <+: inner.dropWhile pyIsSpace := by
  unfold computeUrlPart
  cases h : findTitleStartAux inner 0 with
  | none => exact stripTrail_isPrefix (inner.dropWhile pyIsSpace)
  | some p =>
    exact (stripTrail_isPrefix ((inner.take p).dropWhile pyIsSpace)).trans
      (dropWhile_take_isPrefix pyIsSpace inner p)

/-- Every character of the leading-whitespace run is whitespace. -/
lemma takeWhile_mem_isSpace (inner : List Char) (c : Char)
    (hc : c ∈ inner.takeWhile pyIsSpace) : pyIsSpace c = true :=
  List.mem_takeWhile_imp hc

/-- Decomposition of a parenthesis content holding a data-URI image:
leading whitespace, then the URL part, then the rest (trailing
whitespace and any title). -/
lemma urlPart_decomp (inner : List Char) :
    inner = inner.takeWhile pyIsSpace ++ computeUrlPart inner ++
      inner.drop ((inner.takeWhile pyIsSpace).length + (computeUrlPart inner).length) := by
  obtain ⟨t, ht⟩ := computeUrlPart_isPrefix inner
  have hin : inner = inner.takeWhile pyIsSpace ++ (computeUrlPart inner ++ t) := by
    rw [ht, List.takeWhile_append_dropWhile]
  have key : ∀ z : List Char,
      z = inner.takeWhile pyIsSpace ++ (computeUrlPart inner ++ t) →
      z.drop ((inner.takeWhile pyIsSpace).length + (computeUrlPart inner).length) = t := by
    intro z hz
    subst hz
    have e1 : (inner.takeWhile pyIsSpace).drop
        ((inner.takeWhile pyIsSpace).length + (computeUrlPart inner).length) =
        ([] : List Char) :=
      List.drop_eq_nil_of_le (Nat.le_add_right _ _)
    rw [List.drop_append_eq_append_drop, e1, List.nil_append, Nat.add_sub_cancel_left,
      List.drop_append_eq_append_drop, List.drop_length, Nat.sub_self,
      List.nil_append, List.drop_zero]
  rw [List.append_assoc, key inner hin]
  exact hin

/-- The first occurrence of the URL part in the parenthesis content is
the one after the leading whitespace: the URL part starts with a
non-whitespace character, so it cannot start inside the whitespace
run. -/
lemma splitOnFirst_urlPart (inner : List Char)
    (hd : "data:image".toList.isPrefixOf (computeUrlPart inner) = true) :
    splitOnFirst (computeUrlPart inner) inner =
      some (inner.takeWhile pyIsSpace,
        inner.drop ((inner.takeWhile pyIsSpace).length + (computeUrlPart inner).length)) := by
  obtain ⟨s, hs⟩ := List.isPrefixOf_iff_prefix.mp hd
  have hu : computeUrlPart inner = 'd' :: ("ata:image".toList ++ s) := by
    rw [← hs]; rfl
  have hx : ∀ i < (inner.takeWhile pyIsSpace).length,
      (computeUrlPart inner).isPrefixOf
        ((inner.takeWhile pyIsSpace ++ computeUrlPart inner).drop i) = false := by
    intro i hi
    rw [List.drop_append_eq_append_drop, Nat.sub_eq_zero_of_le (Nat.le_of_lt hi),
      List.drop_zero, List.drop_eq_getElem_cons hi, List.cons_append]
    have hws : pyIsSpace ((inner.takeWhile pyIsSpace)[i]) = true :=
      takeWhile_mem_isSpace inner _ (List.getElem_mem hi)
    have hne : ('d' == (inner.takeWhile pyIsSpace)[i]) = false := by
      rw [beq_eq_false_iff_ne]
      intro he
      rw [← he] at hws
      simp [pyIsSpace] at hws
    rw [hu]
    simp only [List.isPrefixOf, hne, Bool.false_and]
  have hsplit := splitOnFirst_append (computeUrlPart inner) (inner.takeWhile pyIsSpace)
    (inner.drop ((inner.takeWhile pyIsSpace).length + (computeUrlPart inner).length)) hx
  rw [← List.append_assoc, ← urlPart_decomp inner] at hsplit
  exact hsplit

/-- Replacement inside the parenthesis content: only the URL part is
substituted; the leading whitespace and everything after the URL part
(trailing whitespace and any title) are kept character-for-character. -/
lemma replaceFirst_urlPart (inner desc : List Char)
    (hd : "data:image".toList.isPrefixOf (computeUrlPart inner) = true) :
    replaceFirst inner (computeUrlPart inner) desc =
      inner.takeWhile pyIsSpace ++ desc ++
        inner.drop ((inner.takeWhile pyIsSpace).length + (computeUrlPart inner).length) := by
  rw [replaceFirst, splitOnFirst_urlPart inner hd]

/-! ### Concrete inputs used by the claim theorems -/

/-- Two occurrences of the same image payload. -/
def c1input : List Char :=
  "![a](data:image/png;base64,AAAA) and ![b](data:image/png;base64,AAAA)".toList

def c1oracle : List Char → List Char := fun _ => "DESC".toList

/-- The first scanned match of `c1input`. -/
def c1m0 : MdMatch := { inner := "data:image/png;base64,AAAA".toList, gStart := 5 }

/-- The second scanned match of `c1input`. -/
def c1m1 : MdMatch := { inner := "data:image/png;base64,AAAA".toList, gStart := 42 }

/-- Two distinct image payloads, where the replacement text is shorter
than the replaced data URI. -/
def c2input : List Char :=
  "![a](data:image/png;base64,AAAA)![b](data:image/png;base64,BBBB)".toList

def c2oracle : List Char → List Char := fun _ => "D".toList

/-- A markdown input with an image reference that is not a data URI. -/
def c5input : List Char := "Hello ![logo](http://example.com/x.png) world".toList

def c5oracle : List Char → List Char := fun _ => "Z".toList

/-- Two occurrences whose base64 segments differ only by an interior
newline. -/
def c6input : List Char :=
  "![a](data:image/png;base64,AA\nAA) ![b](data:image/png;base64,AAAA)".toList

def c6oracle : List Char → List Char := fun _ => "X".toList

/-- The end-to-end scenario named by the specification: one image with a
quoted title. -/
def c7input : List Char := "![pic](data:image/png;base64,AAAA \"t\")".toList

def c7oracle : List Char → List Char := fun _ => "a red square".toList

/-- A data URI with no `base64,` marker. -/
def c10input : List Char := "![x](data:image/gif;FOO) after".toList

def c10oracle : List Char → List Char := fun _ => "GIFDESC".toList

/-- The parsed response refuting the literal reading of claim C3: the
first choice has an empty-string `text` field. -/
def c3json : JValue := .obj [("choices", .arr [.obj [("text", .str "")]])]

/-- The response exposing the non-string leak of claim C4: the first
text-typed content part has the number `123` as its `text` value. -/
def c4json : JValue :=
  .obj [("choices", .arr [.obj [("message",
    .obj [("content", .arr [.obj [("type", .str "text"), ("text", .num 123)]])])]])]

/-- A filesystem holding one saved markdown file. -/
def c8fs : List (List Char × List Char) := [("doc.md".toList, "# saved".toList)]

def c8oracle : List Char → List Char := fun _ => "W".toList

/-- Raw markdown text, passed where the entry point expects a path. -/
def c8raw : List Char := "# Title\n![a](data:image/png;base64,AAAA)".toList

def c9oracle : List Char → List Char := fun _ => "Y".toList

def c9fallback : List Char := "FALLBACK EXPORT".toList

/-! ### Claim theorems -/

/-- C1 counterexample: on an input with two occurrences of the same
image payload, exactly one remote call is made, but it is false that all
occurrences are replaced with the description: the output keeps the
second occurrence's data URI, so it differs from the text with both
occurrences replaced. -/
theorem c1_counterexample :
    (pictureIntegrationText c1oracle c1input).calls.length = 1 ∧
    pictureIntegrationText c1oracle c1input =
      { text := "![a](DESC) and ![b](data:image/png;base64,AAAA)".toList,
        calls := ["data:image/png;base64,AAAA".toList] } ∧
    (pictureIntegrationText c1oracle c1input).text ≠
      "![a](DESC) and ![b](DESC)".toList := by
  decide

/-- C1 (amended): when every scanned data-URI occurrence of the input
has the same deduplication key, exactly one remote call is made — with
that key as payload — and only the first such occurrence is replaced;
every later duplicate occurrence is skipped before substitution and kept
unchanged. -/
theorem c1_amended_one_call_first_occurrence (oracle : List Char → List Char)
    (content : List Char) (ms1 ms2 : List MdMatch) (m0 : MdMatch)
    (hscan : scanImages content = ms1 ++ m0 :: ms2)
    (h1 : ∀ m ∈ ms1, isDataImageMatch m = false)
    (hm0 : isDataImageMatch m0 = true)
    (h2 : ∀ m ∈ ms2, isDataImageMatch m = true → cleanOf m = cleanOf m0) :
    pictureIntegrationText oracle content =
      { text := content.take m0.gStart ++
          replaceFirst m0.inner (computeUrlPart m0.inner) (oracle (cleanOf m0)) ++
          content.drop (m0.gStart + m0.inner.length),
        calls := [cleanOf m0] } := by
  unfold pictureIntegrationText
  rw [hscan, List.foldl_append,
    foldl_integrationStep_skip oracle ms1 _ (fun m hm hd => by rw [h1 m hm] at hd; simp at hd),
    List.foldl_cons, integrationStep_new oracle _ m0 hm0 (by simp), List.nil_append]
  exact foldl_integrationStep_skip oracle ms2 _ (fun m hm hd => by simp [h2 m hm hd])

/-- C1 witness: the amended theorem applied to the concrete
two-occurrence input. -/
theorem c1_amended_witness :
    scanImages c1input = [] ++ c1m0 :: [c1m1] ∧
    pictureIntegrationText c1oracle c1input =
      { text := c1input.take c1m0.gStart ++
          replaceFirst c1m0.inner (computeUrlPart c1m0.inner) (c1oracle (cleanOf c1m0)) ++
          c1input.drop (c1m0.gStart + c1m0.inner.length),
        calls := [cleanOf c1m0] } :=
  ⟨by decide, c1_amended_one_call_first_occurrence c1oracle c1input [] [c1m1] c1m0
    (by decide) (by decide) (by decide) (by decide)⟩

/-- C2: the code contradicts the claim — with two distinct embedded
images, the group-1 span of the second match (an offset into the
original text) is spliced into the already mutated text, so the second
occurrence is not substituted correctly and unrelated characters (the
closing parenthesis and part of the second data URI) are destroyed.  The
theorem evaluates the code at the failing input. -/
theorem c2_bug_stale_offsets :
    pictureIntegrationText c2oracle c2input =
      { text := "![a](D)![b](data:image/png;base64,BBBD".toList,
        calls := ["data:image/png;base64,AAAA".toList,
          "data:image/png;base64,BBBB".toList] } ∧
    (pictureIntegrationText c2oracle c2input).text ≠ "![a](D)![b](D)".toList := by
  decide

/-- C5: whenever no scanned image reference of the input has a data-URI
URL part, the enrichment returns the input text unchanged and the list
of remote calls is empty. -/
theorem c5_no_data_uri_identity (oracle : List Char → List Char) (content : List Char)
    (h : ∀ m ∈ scanImages content, isDataImageMatch m = false) :
    pictureIntegrationText oracle content = { text := content, calls := [] } := by
  unfold pictureIntegrationText
  exact foldl_integrationStep_skip oracle _ _
    (fun m hm hd => by rw [h m hm] at hd; simp at hd)

/-- C5 witness: the theorem applied to an input holding one plain (non
data-URI) image reference. -/
theorem c5_witness :
    (∀ m ∈ scanImages c5input, isDataImageMatch m = false) ∧
    pictureIntegrationText c5oracle c5input = { text := c5input, calls := [] } :=
  ⟨by decide, c5_no_data_uri_identity c5oracle c5input (by decide)⟩

/-- C6: for a URL part `p ++ "base64," ++ a` whose first `base64,`
occurrence is the displayed one, the normalized payload keeps `p` and
the marker unchanged and removes every whitespace character from `a`;
hence two payloads whose base64 segments agree up to interior whitespace
get the same deduplication key.  On the concrete input whose two
occurrences differ only by an interior newline, exactly one remote call
is made. -/
theorem c6_normalized_dedup_key :
    (∀ p a b : List Char,
      (∀ i < p.length, base64Marker.isPrefixOf ((p ++ base64Marker).drop i) = false) →
      normalizeDataUri (p ++ (base64Marker ++ a)) =
        p ++ (base64Marker ++ a.filter (fun c => !(pyIsSpace c))) ∧
      (a.filter (fun c => !(pyIsSpace c)) = b.filter (fun c => !(pyIsSpace c)) →
        normalizeDataUri (p ++ (base64Marker ++ a)) =
          normalizeDataUri (p ++ (base64Marker ++ b)))) ∧
    (pictureIntegrationText c6oracle c6input).calls =
      ["data:image/png;base64,AAAA".toList] := by
  refine ⟨fun p a b hp => ?_, by decide⟩
  have key : ∀ z : List Char, normalizeDataUri (p ++ (base64Marker ++ z)) =
      p ++ (base64Marker ++ z.filter (fun c => !(pyIsSpace c))) := by
    intro z
    simp [normalizeDataUri, splitOnFirst_append base64Marker p z hp]
  exact ⟨key a, fun hf => by rw [key a, key b, hf]⟩

/-- C6 witness: the theorem applied to the prefix `data:image/png;` and
two base64 segments differing only by a newline. -/
theorem c6_witness :
    (∀ i < "data:image/png;".toList.length,
      base64Marker.isPrefixOf (("data:image/png;".toList ++ base64Marker).drop i) = false) ∧
    normalizeDataUri ("data:image/png;".toList ++ (base64Marker ++ "AA\nAA".toList)) =
      normalizeDataUri ("data:image/png;".toList ++ (base64Marker ++ "AAAA".toList)) :=
  ⟨by decide,
    (c6_normalized_dedup_key.1 "data:image/png;".toList "AA\nAA".toList "AAAA".toList
      (by decide)).2 (by decide)⟩

/-- C7: substitution inside the parenthesis content replaces exactly the
URL part — the content decomposes as leading whitespace, URL part, rest,
and the replacement yields leading whitespace, description, rest, so the
trailing quoted title is preserved character-for-character; and the
end-to-end scenario `![pic](data:image/png;base64,AAAA "t")` with a
service answering `a red square` yields `![pic](a red square "t")`. -/
theorem c7_replacement_preserves_title :
    (∀ inner desc : List Char,
      "data:image".toList.isPrefixOf (computeUrlPart inner) = true →
      inner = inner.takeWhile pyIsSpace ++ computeUrlPart inner ++
        inner.drop ((inner.takeWhile pyIsSpace).length + (computeUrlPart inner).length) ∧
      replaceFirst inner (computeUrlPart inner) desc =
        inner.takeWhile pyIsSpace ++ desc ++
          inner.drop ((inner.takeWhile pyIsSpace).length + (computeUrlPart inner).length)) ∧
    pictureIntegrationText c7oracle c7input =
      { text := "![pic](a red square \"t\")".toList,
        calls := ["data:image/png;base64,AAAA".toList] } :=
  ⟨fun inner desc hd => ⟨urlPart_decomp inner, replaceFirst_urlPart inner desc hd⟩,
    by decide⟩

/-- C7 witness: the replacement part of the theorem applied to the
concrete parenthesis content with a title. -/
theorem c7_witness :
    "data:image".toList.isPrefixOf
      (computeUrlPart "data:image/png;base64,AAAA \"t\"".toList) = true ∧
    replaceFirst "data:image/png;base64,AAAA \"t\"".toList
        (computeUrlPart "data:image/png;base64,AAAA \"t\"".toList) "a red square".toList =
      ("data:image/png;base64,AAAA \"t\"".toList).takeWhile pyIsSpace ++
        "a red square".toList ++
        ("data:image/png;base64,AAAA \"t\"".toList).drop
          ((("data:image/png;base64,AAAA \"t\"".toList).takeWhile pyIsSpace).length +
            (computeUrlPart "data:image/png;base64,AAAA \"t\"".toList).length) :=
  ⟨by decide,
    (c7_replacement_preserves_title.1 "data:image/png;base64,AAAA \"t\"".toList
      "a red square".toList (by decide)).2⟩

/-- C10: a data URI with no `base64,` marker is left unmodified by the
normalisation, and on the concrete input it is itself sent as the
payload of the one remote call and its URL part is replaced by the
returned description, exactly like a base64 data URI. -/
theorem c10_non_base64_data_uri :
    (∀ url : List Char, splitOnFirst base64Marker url = none →
      normalizeDataUri url = url) ∧
    pictureIntegrationText c10oracle c10input =
      { text := "![x](GIFDESC) after".toList, calls := ["data:image/gif;FOO".toList] } :=
  ⟨fun url h => by simp [normalizeDataUri, h], by decide⟩

/-- C10 witness: the normalisation part of the theorem applied to the
concrete marker-free data URI. -/
theorem c10_witness :
    splitOnFirst base64Marker "data:image/gif;FOO".toList = none ∧
    normalizeDataUri "data:image/gif;FOO".toList = "data:image/gif;FOO".toList :=
  ⟨by decide, c10_non_base64_data_uri.1 "data:image/gif;FOO".toList (by decide)⟩

/-- The choices branch of the extraction agrees with the corresponding
segment of the amended priority chain, by cases on its two steps. -/
lemma extract_choices_case (j first : JValue) :
    (match msgContentResult first with
     | some v => v
     | none =>
       match firstChoiceText first with
       | some s => JValue.str s
       | none => afterChoices j) =
    (match msgContentResult first with
     | some v => v
     | none =>
       match (firstChoiceText first).map JValue.str with
       | some v => v
       | none =>
         match topLevelFields j with
         | some s => JValue.str s
         | none => JValue.str (dumps j)) := by
  cases msgContentResult first with
  | some v => rfl
  | none =>
    cases firstChoiceText first with
    | some s => rfl
    | none => rfl

/-- C3 counterexample: on the response `{"choices": [{"text": ""}]}` the
code does not return `choices[0].text` (the empty string), as the
literal priority order claims; it skips the blank string and serialises
the whole structure instead. -/
theorem c3_counterexample :
    PictureDescription (.success "irrelevant" (some c3json)) =
      .str "\x7b\"choices\": [\x7b\"text\": \"\"\x7d]\x7d" ∧
    claimDescription (.success "irrelevant" (some c3json)) = .str "" ∧
    PictureDescription (.success "irrelevant" (some c3json)) ≠
      claimDescription (.success "irrelevant" (some c3json)) := by
  refine ⟨rfl, rfl, fun h => ?_⟩
  have h2 : "\x7b\"choices\": [\x7b\"text\": \"\"\x7d]\x7d" = "" :=
    JValue.str.inj (show JValue.str "\x7b\"choices\": [\x7b\"text\": \"\"\x7d]\x7d" =
      JValue.str "" from h)
  exact absurd h2 (by decide)

/-- C3 (amended): the extraction equals the claimed priority chain once
steps (b) and (c) are restricted to strings whose `strip()` is non-empty
(blank strings fall through, ultimately to the serialisation step); in
particular `{"choices": [{"message": {"content": "desc A"}}]}` extracts
to `desc A`, and a non-JSON body `plain text` is returned verbatim. -/
theorem c3_amended_extraction :
    (∀ o : FetchOutcome, PictureDescription o = claimDescriptionAmended o) ∧
    PictureDescription (.success "irrelevant"
      (some (.obj [("choices", .arr [.obj [("message",
        .obj [("content", .str "desc A")])]])]))) = .str "desc A" ∧
    PictureDescription (.success "plain text" none) = .str "plain text" := by
  refine ⟨fun o => ?_, rfl, rfl⟩
  cases o with
  | failure e => rfl
  | success body parsed =>
    cases parsed with
    | none => rfl
    | some j =>
      show codeExtractJson j = claimExtractJsonAmended j
      unfold codeExtractJson claimExtractJsonAmended claimStepA claimStepBAmended
      cases hc : getField j "choices" with
      | none => rfl
      | some v =>
        cases v with
        | str s => rfl
        | num n => rfl
        | bool b => rfl
        | null => rfl
        | obj fields => rfl
        | arr xs =>
          cases xs with
          | nil => rfl
          | cons first rest => exact extract_choices_case j first

/-- C4: the code contradicts the claim that `PictureDescription` always
returns a string — on a successful response whose first text-typed
content part carries the number `123`, the function returns that number
(line 264 returns `item.get("text")` without an `isinstance` check); on
a transport failure it does return the placeholder string. -/
theorem c4_bug_nonstring_leak :
    PictureDescription (.success "body" (some c4json)) = .num 123 ∧
    (∀ s : String, PictureDescription (.success "body" (some c4json)) ≠ .str s) ∧
    (∀ e : String, PictureDescription (.failure e) = .str (pdFailPlaceholder e)) := by
  refine ⟨rfl, fun s h => ?_, fun e => rfl⟩
  exact JValue.noConfusion (show JValue.num 123 = JValue.str s from h)

/-- C8 counterexample: the entry point does not accept raw Markdown
text — handed a raw markdown document instead of a path, it raises the
not-found error rather than enriching the text, so `accepts either raw
Markdown text or a path` is false of the code. -/
theorem c8_counterexample :
    PictureIntegration c8fs c8oracle c8raw = Except.error c8raw ∧
    (∀ r : IntegrationResult, PictureIntegration c8fs c8oracle c8raw ≠ Except.ok r) := by
  refine ⟨rfl, fun r h => ?_⟩
  exact Except.noConfusion
    (show (Except.error c8raw : Except (List Char) IntegrationResult) = Except.ok r from h)

/-- C8 (amended): the entry point accepts a path only; it fails with the
not-found error exactly when the path does not exist, and otherwise
reads the file fully and enriches its content. -/
theorem c8_amended_path_only (fs : List (List Char × List Char))
    (oracle : List Char → List Char) (p : List Char) :
    (lookupFs fs p = none → PictureIntegration fs oracle p = Except.error p) ∧
    (∀ c, lookupFs fs p = some c →
      PictureIntegration fs oracle p = Except.ok (pictureIntegrationText oracle c)) := by
  constructor
  · intro h
    simp [PictureIntegration, h]
  · intro c h
    simp [PictureIntegration, h]

/-- C8 witness: the amended theorem applied to an existing and to a
missing path. -/
theorem c8_amended_witness :
    lookupFs c8fs "doc.md".toList = some "# saved".toList ∧
    PictureIntegration c8fs c8oracle "doc.md".toList =
      Except.ok (pictureIntegrationText c8oracle "# saved".toList) ∧
    lookupFs c8fs "missing.md".toList = none ∧
    PictureIntegration c8fs c8oracle "missing.md".toList =
      Except.error "missing.md".toList :=
  ⟨by decide,
    (c8_amended_path_only c8fs c8oracle "doc.md".toList).2 "# saved".toList (by decide),
    by decide,
    (c8_amended_path_only c8fs c8oracle "missing.md".toList).1 (by decide)⟩

/-- C9: the docling endpoint's enrichment step recovers from any
enrichment failure by falling back to the unenriched export, and uses
the enriched text when the enrichment succeeds — the conversion result
is returned either way. -/
theorem c9_fallback_on_enrichment_error (fs : List (List Char × List Char))
    (oracle : List Char → List Char) (p fallback : List Char) :
    (∀ e, PictureIntegration fs oracle p = Except.error e →
      doclingEnrichmentStep fs oracle p fallback = fallback) ∧
    (∀ r, PictureIntegration fs oracle p = Except.ok r →
      doclingEnrichmentStep fs oracle p fallback = r.text) := by
  constructor
  · intro e h
    simp [doclingEnrichmentStep, h]
  · intro r h
    simp [doclingEnrichmentStep, h]

/-- C9 witness: the theorem applied to a missing file (fallback used)
and to an existing file (enriched text used). -/
theorem c9_witness :
    PictureIntegration ([] : List (List Char × List Char)) c9oracle "x.md".toList =
      Except.error "x.md".toList ∧
    doclingEnrichmentStep [] c9oracle "x.md".toList c9fallback = c9fallback ∧
    PictureIntegration c8fs c9oracle "doc.md".toList =
      Except.ok (pictureIntegrationText c9oracle "# saved".toList) ∧
    doclingEnrichmentStep c8fs c9oracle "doc.md".toList c9fallback =
      (pictureIntegrationText c9oracle "# saved".toList).text :=
  ⟨rfl,
    (c9_fallback_on_enrichment_error [] c9oracle "x.md".toList c9fallback).1
      "x.md".toList rfl,
    rfl,
    (c9_fallback_on_enrichment_error c8fs c9oracle "doc.md".toList c9fallback).2
      (pictureIntegrationText c9oracle "# saved".toList) rfl⟩

